import Mathlib

/-!
Verification of the network admitter checks of `pkg/network/admitter/netiface.go`:
the cross-reference checker, the uniqueness checker and the per-interface
field-format checker over a virtual machine instance spec. Each Go function is
embedded as a total Lean function over an explicit data model; the k8s field
path, threaded through the checks purely as a label, is carried as its
serialized string.
-/

/-- Embedding of `k8sfield.Path` as the checks use it: only the serialized
form (`Path.String()`) reaches the output, so a path is carried as that
string. The caller supplies the root as an arbitrary prefix string. -/
structure FieldPath where
  path : String
deriving DecidableEq, Repr

/-- `Path.Child(name)`: append a named attribute. -/
def FieldPath.child (p : FieldPath) (n : String) : FieldPath :=
  ⟨p.path ++ "." ++ n⟩

/-- `Path.Index(i)`: append a list index. -/
def FieldPath.index (p : FieldPath) (i : Nat) : FieldPath :=
  ⟨p.path ++ "[" ++ toString i ++ "]"⟩

/-- `Path.String()`. -/
def FieldPath.str (p : FieldPath) : String :=
  p.path

/-- The four `metav1.CauseType` values the file uses:
`CauseTypeFieldValueRequired`, `...Invalid`, `...Duplicate`,
`...NotSupported`. -/
inductive CauseType where
  | Required
  | Invalid
  | Duplicate
  | NotSupported
deriving DecidableEq, Repr

/-- `metav1.StatusCause`: kind, human-readable message, offending field path. -/
structure StatusCause where
  type : CauseType
  message : String
  field : String
deriving DecidableEq, Repr

/-- A network declaration (`v1.Network`): the checks read only its `Name`. -/
structure Network where
  name : String
deriving DecidableEq, Repr

/-- An interface declaration (`v1.Interface`): the checks read `Name`,
`Model`, `MacAddress` and `PciAddress`, each an (optional, possibly empty)
string. -/
structure Interface where
  name : String
  model : String
  macAddress : String
  pciAddress : String
deriving DecidableEq, Repr

/-- The device section holding the interface list
(`spec.Domain.Devices.Interfaces`). -/
structure Devices where
  interfaces : List Interface
deriving DecidableEq, Repr

/-- The domain section (`spec.Domain`). -/
structure DomainSpec where
  devices : Devices
deriving DecidableEq, Repr

/-- `v1.VirtualMachineInstanceSpec` restricted to the fields the checks
read: the network list and the interface list under the device section. -/
structure VirtualMachineInstanceSpec where
  domain : DomainSpec
  networks : List Network
deriving DecidableEq, Repr

/-- `field.Child("networks").Index(i).Child("name").String()`, the label the
network-side checks attach to their causes. -/
def networkNameField (field : FieldPath) (i : Nat) : String :=
  (((field.child "networks").index i).child "name").str

/-- `field.Child("domain", "devices", "interfaces").Index(idx).Child(attr).String()`,
the label the interface-side checks attach to their causes. -/
def interfaceField (field : FieldPath) (idx : Nat) (attr : String) : String :=
  (((((field.child "domain").child "devices").child "interfaces").index idx).child attr).str

/-- Modelled from the spec: `vmispec.IndexInterfaceSpecByName` builds "a
lookup set of interface names ... each a set keyed by declared name;
last-write is irrelevant since only presence matters". The Go map is carried
as its entry list; the checks consult it only through `mapContains`. -/
def indexInterfaceSpecByName (interfaces : List Interface) : List (String × Interface) :=
  interfaces.map fun iface => (iface.name, iface)

/-- Modelled from the spec: `vmispec.IndexNetworkSpecByName`, the symmetric
lookup set of network names. -/
def indexNetworkSpecByName (networks : List Network) : List (String × Network) :=
  networks.map fun network => (network.name, network)

/-- `_, exists := m[k]`: key membership, the only operation the checks
perform on the built maps. -/
def mapContains {α : Type} (m : List (String × α)) (k : String) : Bool :=
  m.any fun e => e.1 == k

/-- Lower-case hexadecimal digit for a value below 16, as Go's `strconv`
renders `\xHH` escapes. -/
def hexDigitLower (n : Nat) : Char :=
  if n < 10 then Char.ofNat (48 + n) else Char.ofNat (87 + n)

/-- One character of Go's `%q` rendering (`strconv.Quote`): standard escapes
for the quote, the backslash and the ASCII control characters; printable
characters kept as they are. (Go would additionally escape unprintable
non-ASCII runes; over ASCII, which is all the checks' messages are compared
on, this is exact.) -/
def goQuoteChar (c : Char) : String :=
  if c = '"' then "\\\""
  else if c = '\\' then "\\\\"
  else if c = Char.ofNat 7 then "\\a"
  else if c = Char.ofNat 8 then "\\b"
  else if c = Char.ofNat 12 then "\\f"
  else if c = Char.ofNat 10 then "\\n"
  else if c = Char.ofNat 13 then "\\r"
  else if c = Char.ofNat 9 then "\\t"
  else if c = Char.ofNat 11 then "\\v"
  else if c.toNat < 32 ∨ c.toNat = 127 then
    String.mk ['\\', 'x', hexDigitLower (c.toNat / 16), hexDigitLower (c.toNat % 16)]
  else String.singleton c

/-- Go's `%q` verb on a string: the double-quoted, escaped form. -/
def goQuote (s : String) : String :=
  "\"" ++ String.join (s.data.map goQuoteChar) ++ "\""

/-- `validateNetworksAssignedToInterfaces`'s loop over `spec.Networks`,
carrying the running index `i`; `interfaceSet` is the prebuilt lookup map.
The message is `fmt.Sprintf("%s '%s' not found.", path, name)`. -/
def networksNotFoundCauses (field : FieldPath) (interfaceSet : List (String × Interface)) :
    Nat → List Network → List StatusCause
  | _, [] => []
  | i, network :: rest =>
    (if mapContains interfaceSet network.name then []
     else [{ type := CauseType.Required,
             message := networkNameField field i ++ " '" ++ network.name ++ "' not found.",
             field := networkNameField field i }])
    ++ networksNotFoundCauses field interfaceSet (i + 1) rest

/-- `validateNetworksAssignedToInterfaces`: every network name must name an
existing interface. -/
def validateNetworksAssignedToInterfaces (field : FieldPath)
    (spec : VirtualMachineInstanceSpec) : List StatusCause :=
  networksNotFoundCauses field (indexInterfaceSpecByName spec.domain.devices.interfaces)
    0 spec.networks

/-- `validateInterfacesAssignedToNetworks`'s loop over
`spec.Domain.Devices.Interfaces`; `networkSet` is the prebuilt lookup map. -/
def interfacesNotFoundCauses (field : FieldPath) (networkSet : List (String × Network)) :
    Nat → List Interface → List StatusCause
  | _, [] => []
  | idx, iface :: rest =>
    (if mapContains networkSet iface.name then []
     else [{ type := CauseType.Invalid,
             message := interfaceField field idx "name" ++ " '" ++ iface.name ++ "' not found.",
             field := interfaceField field idx "name" }])
    ++ interfacesNotFoundCauses field networkSet (idx + 1) rest

/-- `validateInterfacesAssignedToNetworks`: every interface name must name a
declared network. -/
def validateInterfacesAssignedToNetworks (field : FieldPath)
    (spec : VirtualMachineInstanceSpec) : List StatusCause :=
  interfacesNotFoundCauses field (indexNetworkSpecByName spec.networks)
    0 spec.domain.devices.interfaces

/-- `validateNetworkNameUnique`'s loop: the running seen-set (the Go
`map[string]struct{}`, carried as the list of inserted names — only
membership is consulted), the running index, the remaining networks. The
message is `fmt.Sprintf("Network with name %q already exists, every network
must have a unique name", name)`. -/
def networkDupCauses (field : FieldPath) :
    List String → Nat → List Network → List StatusCause
  | _, _, [] => []
  | networkSet, i, network :: rest =>
    (if networkSet.contains network.name then
       [{ type := CauseType.Duplicate,
          message := "Network with name " ++ goQuote network.name ++
            " already exists, every network must have a unique name",
          field := networkNameField field i }]
     else [])
    ++ networkDupCauses field (networkSet ++ [network.name]) (i + 1) rest

/-- `validateNetworkNameUnique`: report each repeated network name. -/
def validateNetworkNameUnique (field : FieldPath)
    (spec : VirtualMachineInstanceSpec) : List StatusCause :=
  networkDupCauses field [] 0 spec.networks

/-- `validateInterfaceNameUnique`'s loop, symmetric to `networkDupCauses`
with a constant message. -/
def interfaceDupCauses (field : FieldPath) :
    List String → Nat → List Interface → List StatusCause
  | _, _, [] => []
  | ifaceSet, idx, iface :: rest =>
    (if ifaceSet.contains iface.name then
       [{ type := CauseType.Duplicate,
          message := "Only one interface can be connected to one specific network",
          field := interfaceField field idx "name" }]
     else [])
    ++ interfaceDupCauses field (ifaceSet ++ [iface.name]) (idx + 1) rest

/-- `validateInterfaceNameUnique`: report each repeated interface name. -/
def validateInterfaceNameUnique (field : FieldPath)
    (spec : VirtualMachineInstanceSpec) : List StatusCause :=
  interfaceDupCauses field [] 0 spec.domain.devices.interfaces

/-- The character class of the name pattern `[A-Za-z0-9-_]`. -/
def isValidNameChar (c : Char) : Bool :=
  (decide ('A' ≤ c) && decide (c ≤ 'Z')) || (decide ('a' ≤ c) && decide (c ≤ 'z')) ||
  (decide ('0' ≤ c) && decide (c ≤ '9')) || c == '-' || c == '_'

/-- Embedding of `regexp.MustCompile(` the anchored class pattern
`).MatchString`: with both anchors and no multiline flag the pattern matches
exactly the non-empty strings drawn from the class. -/
def interfaceNameValid (s : String) : Bool :=
  !s.data.isEmpty && s.data.all isValidNameChar

/-- `validateInterfaceNameFormat`: the interface name must match the anchored
pattern; otherwise one Invalid cause at the name path. -/
def validateInterfaceNameFormat (field : FieldPath) (idx : Nat) (iface : Interface) :
    List StatusCause :=
  if !(interfaceNameValid iface.name) then
    [{ type := CauseType.Invalid,
       message := "Network interface name can only contain alphabetical characters, numbers, dashes (-) or underscores (_)",
       field := interfaceField field idx "name" }]
  else []

/-- `validInterfaceModels`, the fixed whitelist (a Go `map[string]struct{}`
literal consulted only for membership; "virtio" is `v1.VirtIO`, the platform
default paravirtualized NIC identifier). -/
def validInterfaceModels : List String :=
  ["e1000", "e1000e", "ne2k_pci", "pcnet", "rtl8139", "virtio"]

/-- `validateInterfaceModel`: an empty model is skipped; a non-empty model
outside the whitelist yields one NotSupported cause at the model path. -/
def validateInterfaceModel (field : FieldPath) (idx : Nat) (iface : Interface) :
    List StatusCause :=
  if iface.model ≠ "" then
    if !(validInterfaceModels.contains iface.model) then
      [{ type := CauseType.NotSupported,
         message := "interface " ++ interfaceField field idx "name" ++
           " uses model " ++ iface.model ++ " that is not supported.",
         field := interfaceField field idx "model" }]
    else []
  else []

/-- A hexadecimal digit, as Go's `net.xtoi` accepts one. -/
def isHexDigitChar (c : Char) : Bool :=
  (decide ('0' ≤ c) && decide (c ≤ '9')) || (decide ('a' ≤ c) && decide (c ≤ 'f')) ||
  (decide ('A' ≤ c) && decide (c ≤ 'F'))

/-- The value of a hexadecimal digit. -/
def hexDigitVal (c : Char) : Nat :=
  if decide ('0' ≤ c) && decide (c ≤ '9') then c.toNat - 48
  else if decide ('a' ≤ c) && decide (c ≤ 'f') then c.toNat - 87
  else if decide ('A' ≤ c) && decide (c ≤ 'F') then c.toNat - 55
  else 0

/-- Two hexadecimal digits as one byte value, or failure. -/
def hexPairVal (a b : Char) : Option Nat :=
  if isHexDigitChar a && isHexDigitChar b then some (16 * hexDigitVal a + hexDigitVal b)
  else none

/-- Go's `net.xtoi2(s, e)` on the remaining characters: when more than two
characters remain the third must be the separator `e`; the first two must be
hexadecimal digits. -/
def xtoi2 : List Char → Char → Option Nat
  | [a, b], _ => hexPairVal a b
  | a :: b :: c :: _, e => if c == e then hexPairVal a b else none
  | _, _ => none

/-- The separator-delimited byte groups of `net.ParseMAC`'s colon/hyphen
branch: `n` groups read three characters apart. -/
def parseHexGroups (sep : Char) : Nat → List Char → Option (List Nat)
  | 0, _ => some []
  | n + 1, s =>
    match xtoi2 s sep with
    | none => none
    | some b =>
      match parseHexGroups sep n (s.drop 3) with
      | none => none
      | some bs => some (b :: bs)

/-- The dot branch of `net.ParseMAC`: `n` four-digit groups five characters
apart, each yielding two bytes (`xtoi2(s[x:x+2], 0)` then
`xtoi2(s[x+2:], '.')`). -/
def parseDotGroups : Nat → List Char → Option (List Nat)
  | 0, _ => some []
  | n + 1, s =>
    match xtoi2 (s.take 2) '.' with
    | none => none
    | some hi =>
      match xtoi2 (s.drop 2) '.' with
      | none => none
      | some lo =>
        match parseDotGroups n (s.drop 5) with
        | none => none
        | some bs => some (hi :: lo :: bs)

/-- Embedding of Go's `net.ParseMAC`: strings shorter than 14 characters
fail; with `:` or `-` in position 2, `(len+1)` must be divisible by 3 and
yield 6, 8 or 20 byte groups; with `.` in position 4, `(len+1)` must be
divisible by 5 and yield 6, 8 or 20 bytes from four-digit groups. A failed
parse returns `none` — the Go function returns a nil `HardwareAddr` (length
zero) together with the error. -/
def parseMAC (s : String) : Option (List Nat) :=
  let cs := s.data
  if cs.length < 14 then none
  else if cs.getD 2 ' ' == ':' || cs.getD 2 ' ' == '-' then
    if (cs.length + 1) % 3 ≠ 0 then none
    else
      let n := (cs.length + 1) / 3
      if ¬(n = 6 ∨ n = 8 ∨ n = 20) then none
      else parseHexGroups (cs.getD 2 ' ') n cs
  else if cs.getD 4 ' ' == '.' then
    if (cs.length + 1) % 5 ≠ 0 then none
    else
      let n := 2 * (cs.length + 1) / 5
      if ¬(n = 6 ∨ n = 8 ∨ n = 20) then none
      else parseDotGroups (n / 2) cs
  else none

/-- `validateMacAddress`: an empty address is skipped; a parse failure yields
the malformed cause, and a parsed address of more than `macLen = 6` bytes
yields the too-long cause (on a parse failure the Go `mac` slice is nil, of
length zero). Both causes point at the macAddress path. -/
def validateMacAddress (field : FieldPath) (idx : Nat) (iface : Interface) :
    List StatusCause :=
  if iface.macAddress ≠ "" then
    let mac := parseMAC iface.macAddress
    (if mac = none then
       [{ type := CauseType.Invalid,
          message := "interface " ++ interfaceField field idx "name" ++
            " has malformed MAC address (" ++ iface.macAddress ++ ").",
          field := interfaceField field idx "macAddress" }]
     else [])
    ++ (if 6 < (mac.getD []).length then
       [{ type := CauseType.Invalid,
          message := "interface " ++ interfaceField field idx "name" ++
            " has MAC address (" ++ iface.macAddress ++ ") that is too long.",
          field := interfaceField field idx "macAddress" }]
     else [])
  else []

/-- A PCI function digit, `0` through `7`. -/
def isPciFunctionDigit (c : Char) : Bool :=
  decide ('0' ≤ c) && decide (c ≤ '7')

/-- Modelled from the spec: `hwutil.ParsePciAddress`, "the platform
PCI-address grammar (domain:bus:device.function, each component a
fixed-width hexadecimal field; exact grammar is an external collaborator's
concern)": four hexadecimal digits, a colon, two, a colon, two, a dot and
one function digit; on success the four component strings. -/
def parsePciAddress (addr : String) : Option (List String) :=
  match addr.data with
  | [a1, a2, a3, a4, s1, b1, b2, s2, d1, d2, s3, fd] =>
    if isHexDigitChar a1 && isHexDigitChar a2 && isHexDigitChar a3 && isHexDigitChar a4 &&
       (s1 == ':') && isHexDigitChar b1 && isHexDigitChar b2 && (s2 == ':') &&
       isHexDigitChar d1 && isHexDigitChar d2 && (s3 == '.') && isPciFunctionDigit fd then
      some [String.mk [a1, a2, a3, a4], String.mk [b1, b2], String.mk [d1, d2], String.mk [fd]]
    else none
  | _ => none

/-- `validatePciAddress`: an empty address is skipped; a rejected one yields
one Invalid cause at the pciAddress path. -/
def validatePciAddress (field : FieldPath) (idx : Nat) (iface : Interface) :
    List StatusCause :=
  if iface.pciAddress ≠ "" then
    if parsePciAddress iface.pciAddress = none then
      [{ type := CauseType.Invalid,
         message := "interface " ++ interfaceField field idx "name" ++
           " has malformed PCI address (" ++ iface.pciAddress ++ ").",
         field := interfaceField field idx "pciAddress" }]
    else []
  else []

/-- `validateInterfacesFields`'s loop: per interface, in order, the four
sub-checks name format, model, MAC address, PCI address, their causes
appended. -/
def interfaceFieldCauses (field : FieldPath) : Nat → List Interface → List StatusCause
  | _, [] => []
  | idx, iface :: rest =>
    validateInterfaceNameFormat field idx iface
    ++ validateInterfaceModel field idx iface
    ++ validateMacAddress field idx iface
    ++ validatePciAddress field idx iface
    ++ interfaceFieldCauses field (idx + 1) rest

/-- `validateInterfacesFields`: the field-format checker over the whole
interface list. -/
def validateInterfacesFields (field : FieldPath)
    (spec : VirtualMachineInstanceSpec) : List StatusCause :=
  interfaceFieldCauses field 0 spec.domain.devices.interfaces

/-! ## Helper lemmas -/

lemma mem_of_mem_enumFrom {α : Type} {p : Nat × α} :
    ∀ {n : Nat} {l : List α}, p ∈ List.enumFrom n l → p.2 ∈ l := by
  intro n l
  induction l generalizing n with
  | nil => intro h; cases h
  | cons a t ih =>
    intro h
    rw [show List.enumFrom n (a :: t) = (n, a) :: List.enumFrom (n + 1) t from rfl,
        List.mem_cons] at h
    cases h with
    | inl h => rw [h]; exact List.mem_cons_self a t
    | inr h => exact List.mem_cons_of_mem a (ih h)

lemma mem_of_mem_enum {α : Type} {p : Nat × α} {l : List α} (h : p ∈ l.enum) : p.2 ∈ l :=
  mem_of_mem_enumFrom h

lemma mapContains_indexInterface (interfaces : List Interface) (s : String) :
    mapContains (indexInterfaceSpecByName interfaces) s = true ↔
      s ∈ interfaces.map Interface.name := by
  simp [mapContains, indexInterfaceSpecByName, List.any_eq_true, List.mem_map, beq_iff_eq]

lemma mapContains_indexNetwork (networks : List Network) (s : String) :
    mapContains (indexNetworkSpecByName networks) s = true ↔
      s ∈ networks.map Network.name := by
  simp [mapContains, indexNetworkSpecByName, List.any_eq_true, List.mem_map, beq_iff_eq]

lemma networksNotFoundCauses_eq (field : FieldPath) (mS : List (String × Interface)) :
    ∀ (n : Nat) (l : List Network),
    networksNotFoundCauses field mS n l =
      (List.enumFrom n l).filterMap (fun p =>
        if mapContains mS p.2.name then none
        else some { type := CauseType.Required,
                    message := networkNameField field p.1 ++ " '" ++ p.2.name ++ "' not found.",
                    field := networkNameField field p.1 }) := by
  intro n l
  induction l generalizing n with
  | nil => rfl
  | cons a t ih =>
    rw [show List.enumFrom n (a :: t) = (n, a) :: List.enumFrom (n + 1) t from rfl,
        List.filterMap_cons]
    by_cases h : mapContains mS a.name = true
    · simp [networksNotFoundCauses, h, ih]
    · simp [networksNotFoundCauses, h, ih]

lemma interfacesNotFoundCauses_eq (field : FieldPath) (mS : List (String × Network)) :
    ∀ (n : Nat) (l : List Interface),
    interfacesNotFoundCauses field mS n l =
      (List.enumFrom n l).filterMap (fun p =>
        if mapContains mS p.2.name then none
        else some { type := CauseType.Invalid,
                    message := interfaceField field p.1 "name" ++ " '" ++ p.2.name ++ "' not found.",
                    field := interfaceField field p.1 "name" }) := by
  intro n l
  induction l generalizing n with
  | nil => rfl
  | cons a t ih =>
    rw [show List.enumFrom n (a :: t) = (n, a) :: List.enumFrom (n + 1) t from rfl,
        List.filterMap_cons]
    by_cases h : mapContains mS a.name = true
    · simp [interfacesNotFoundCauses, h, ih]
    · simp [interfacesNotFoundCauses, h, ih]

/-! ## Claim theorems -/

/-- C1: if every network name appears among the interface names and every
interface name appears among the network names, both cross-reference checks
return the empty cause list; in general `validateNetworksAssignedToInterfaces`
emits, in original network-list order, exactly one cause of kind Required per
network whose name is absent from the interface names, with message
`<networks[i].name path> '<name>' not found.` and field path
`networks[i].name`, and `validateInterfacesAssignedToNetworks` symmetrically
emits, in original interface-list order, exactly one cause of kind Invalid
per interface whose name is absent from the network names. -/
theorem crossReferenceChecker_correct (field : FieldPath) (spec : VirtualMachineInstanceSpec) :
    (validateNetworksAssignedToInterfaces field spec =
      spec.networks.enum.filterMap (fun p =>
        if p.2.name ∈ spec.domain.devices.interfaces.map Interface.name then none
        else some { type := CauseType.Required,
                    message := networkNameField field p.1 ++ " '" ++ p.2.name ++ "' not found.",
                    field := networkNameField field p.1 }))
    ∧ (validateInterfacesAssignedToNetworks field spec =
      spec.domain.devices.interfaces.enum.filterMap (fun p =>
        if p.2.name ∈ spec.networks.map Network.name then none
        else some { type := CauseType.Invalid,
                    message := interfaceField field p.1 "name" ++ " '" ++ p.2.name ++ "' not found.",
                    field := interfaceField field p.1 "name" }))
    ∧ ((∀ network ∈ spec.networks, network.name ∈ spec.domain.devices.interfaces.map Interface.name) →
       (∀ iface ∈ spec.domain.devices.interfaces, iface.name ∈ spec.networks.map Network.name) →
       validateNetworksAssignedToInterfaces field spec = [] ∧
       validateInterfacesAssignedToNetworks field spec = []) := by
  have h1 : validateNetworksAssignedToInterfaces field spec =
      spec.networks.enum.filterMap (fun p =>
        if p.2.name ∈ spec.domain.devices.interfaces.map Interface.name then none
        else some { type := CauseType.Required,
                    message := networkNameField field p.1 ++ " '" ++ p.2.name ++ "' not found.",
                    field := networkNameField field p.1 }) := by
    unfold validateNetworksAssignedToInterfaces
    rw [networksNotFoundCauses_eq]
    have hfg : (fun p : Nat × Network =>
        if mapContains (indexInterfaceSpecByName spec.domain.devices.interfaces) p.2.name then
          (none : Option StatusCause)
        else some { type := CauseType.Required,
                    message := networkNameField field p.1 ++ " '" ++ p.2.name ++ "' not found.",
                    field := networkNameField field p.1 }) =
        (fun p : Nat × Network =>
        if p.2.name ∈ spec.domain.devices.interfaces.map Interface.name then none
        else some { type := CauseType.Required,
                    message := networkNameField field p.1 ++ " '" ++ p.2.name ++ "' not found.",
                    field := networkNameField field p.1 }) := by
      funext p
      by_cases h : p.2.name ∈ spec.domain.devices.interfaces.map Interface.name
      · rw [if_pos ((mapContains_indexInterface _ _).mpr h), if_pos h]
      · rw [if_neg (fun hc => h ((mapContains_indexInterface _ _).mp hc)), if_neg h]
    rw [hfg]
    rfl
  have h2 : validateInterfacesAssignedToNetworks field spec =
      spec.domain.devices.interfaces.enum.filterMap (fun p =>
        if p.2.name ∈ spec.networks.map Network.name then none
        else some { type := CauseType.Invalid,
                    message := interfaceField field p.1 "name" ++ " '" ++ p.2.name ++ "' not found.",
                    field := interfaceField field p.1 "name" }) := by
    unfold validateInterfacesAssignedToNetworks
    rw [interfacesNotFoundCauses_eq]
    have hfg : (fun p : Nat × Interface =>
        if mapContains (indexNetworkSpecByName spec.networks) p.2.name then
          (none : Option StatusCause)
        else some { type := CauseType.Invalid,
                    message := interfaceField field p.1 "name" ++ " '" ++ p.2.name ++ "' not found.",
                    field := interfaceField field p.1 "name" }) =
        (fun p : Nat × Interface =>
        if p.2.name ∈ spec.networks.map Network.name then none
        else some { type := CauseType.Invalid,
                    message := interfaceField field p.1 "name" ++ " '" ++ p.2.name ++ "' not found.",
                    field := interfaceField field p.1 "name" }) := by
      funext p
      by_cases h : p.2.name ∈ spec.networks.map Network.name
      · rw [if_pos ((mapContains_indexNetwork _ _).mpr h), if_pos h]
      · rw [if_neg (fun hc => h ((mapContains_indexNetwork _ _).mp hc)), if_neg h]
    rw [hfg]
    rfl
  refine ⟨h1, h2, fun hnet hif => ⟨?_, ?_⟩⟩
  · rw [h1]
    exact List.filterMap_eq_nil_iff.mpr fun p hp => if_pos (hnet p.2 (mem_of_mem_enum hp))
  · rw [h2]
    exact List.filterMap_eq_nil_iff.mpr fun p hp => if_pos (hif p.2 (mem_of_mem_enum hp))

lemma stringContains_iff {l : List String} {s : String} : l.contains s = true ↔ s ∈ l :=
  List.elem_iff

lemma networkDupCauses_eq (field : FieldPath) :
    ∀ (l pre : List Network),
    networkDupCauses field (pre.map Network.name) pre.length l =
      (List.enumFrom pre.length l).filterMap (fun p =>
        if p.2.name ∈ ((pre ++ l).take p.1).map Network.name then
          some { type := CauseType.Duplicate,
                 message := "Network with name " ++ goQuote p.2.name ++
                   " already exists, every network must have a unique name",
                 field := networkNameField field p.1 }
        else none) := by
  intro l
  induction l with
  | nil => intro pre; rfl
  | cons a t ih =>
    intro pre
    rw [show List.enumFrom pre.length (a :: t) =
          (pre.length, a) :: List.enumFrom (pre.length + 1) t from rfl,
        List.filterMap_cons]
    have htake : (pre ++ a :: t).take pre.length = pre := List.take_left pre (a :: t)
    have hrec := ih (pre ++ [a])
    simp only [List.map_append, List.map_cons, List.map_nil, List.length_append,
      List.length_cons, List.length_nil, List.append_assoc, List.singleton_append,
      Nat.zero_add] at hrec
    by_cases h : a.name ∈ pre.map Network.name
    · have hc : (pre.map Network.name).contains a.name = true := stringContains_iff.mpr h
      simp only [networkDupCauses, hc, if_true, htake, h, if_pos, hrec]
      rfl
    · have hc : ¬ ((pre.map Network.name).contains a.name = true) :=
        fun hx => h (stringContains_iff.mp hx)
      simp only [networkDupCauses, hc, if_false, htake, h, if_neg, hrec]
      rfl

lemma interfaceDupCauses_eq (field : FieldPath) :
    ∀ (l pre : List Interface),
    interfaceDupCauses field (pre.map Interface.name) pre.length l =
      (List.enumFrom pre.length l).filterMap (fun p =>
        if p.2.name ∈ ((pre ++ l).take p.1).map Interface.name then
          some { type := CauseType.Duplicate,
                 message := "Only one interface can be connected to one specific network",
                 field := interfaceField field p.1 "name" }
        else none) := by
  intro l
  induction l with
  | nil => intro pre; rfl
  | cons a t ih =>
    intro pre
    rw [show List.enumFrom pre.length (a :: t) =
          (pre.length, a) :: List.enumFrom (pre.length + 1) t from rfl,
        List.filterMap_cons]
    have htake : (pre ++ a :: t).take pre.length = pre := List.take_left pre (a :: t)
    have hrec := ih (pre ++ [a])
    simp only [List.map_append, List.map_cons, List.map_nil, List.length_append,
      List.length_cons, List.length_nil, List.append_assoc, List.singleton_append,
      Nat.zero_add] at hrec
    by_cases h : a.name ∈ pre.map Interface.name
    · have hc : (pre.map Interface.name).contains a.name = true := stringContains_iff.mpr h
      simp only [interfaceDupCauses, hc, if_true, htake, h, if_pos, hrec]
      rfl
    · have hc : ¬ ((pre.map Interface.name).contains a.name = true) :=
        fun hx => h (stringContains_iff.mp hx)
      simp only [interfaceDupCauses, hc, if_false, htake, h, if_neg, hrec]
      rfl

lemma countDupAux {α : Type} (f : α → String) (s : String) :
    ∀ (l pre : List α),
    (List.enumFrom pre.length l).countP
        (fun p => (f p.2 == s) && decide (f p.2 ∈ ((pre ++ l).take p.1).map f)) =
      (if s ∈ pre.map f then (l.map f).count s else (l.map f).count s - 1) := by
  intro l
  induction l with
  | nil =>
    intro pre
    by_cases h : s ∈ pre.map f <;> simp [h]
  | cons a t ih =>
    intro pre
    rw [show List.enumFrom pre.length (a :: t) =
          (pre.length, a) :: List.enumFrom (pre.length + 1) t from rfl,
        List.countP_cons]
    have htake : (pre ++ a :: t).take pre.length = pre := List.take_left pre (a :: t)
    have hrec := ih (pre ++ [a])
    simp only [List.map_append, List.map_cons, List.map_nil, List.length_append,
      List.length_cons, List.length_nil, List.append_assoc, List.singleton_append,
      Nat.zero_add] at hrec
    rw [hrec]
    simp only [htake, List.map_cons, List.count_cons, List.mem_append, List.mem_singleton]
    by_cases hs : s ∈ pre.map f
    · by_cases ha : f a = s
      · simp [hs, ha, beq_iff_eq]
      · have ha' : ¬ s = f a := fun h => ha h.symm
        simp [hs, ha, ha', beq_iff_eq]
    · by_cases ha : f a = s
      · simp [hs, ha, beq_iff_eq]
      · have ha' : ¬ s = f a := fun h => ha h.symm
        simp [hs, ha, ha', beq_iff_eq]

/-- C2 (amended): for every name occurring k times in the network list,
`validateNetworkNameUnique` emits exactly k−1 causes of kind Duplicate — one
per occurrence after the first, in original list order, each with field path
`networks[i].name` of that repeat occurrence — and the message renders the
name double-quoted by Go's `%q` verb (not single-quoted):
`Network with name "<name>" already exists, every network must have a unique
name`; `validateInterfaceNameUnique` applies the symmetric procedure to the
interface list with the verbatim constant message `Only one interface can be
connected to one specific network` and a field path pointing at the repeated
interface's name. -/
theorem nameUniquenessChecker_amended (field : FieldPath) (spec : VirtualMachineInstanceSpec) :
    (validateNetworkNameUnique field spec =
      spec.networks.enum.filterMap (fun p =>
        if p.2.name ∈ (spec.networks.take p.1).map Network.name then
          some { type := CauseType.Duplicate,
                 message := "Network with name " ++ goQuote p.2.name ++
                   " already exists, every network must have a unique name",
                 field := networkNameField field p.1 }
        else none))
    ∧ (validateInterfaceNameUnique field spec =
      spec.domain.devices.interfaces.enum.filterMap (fun p =>
        if p.2.name ∈ (spec.domain.devices.interfaces.take p.1).map Interface.name then
          some { type := CauseType.Duplicate,
                 message := "Only one interface can be connected to one specific network",
                 field := interfaceField field p.1 "name" }
        else none))
    ∧ (∀ s : String,
        spec.networks.enum.countP
            (fun p => (p.2.name == s) &&
              decide (p.2.name ∈ (spec.networks.take p.1).map Network.name)) =
          (spec.networks.map Network.name).count s - 1)
    ∧ (∀ s : String,
        spec.domain.devices.interfaces.enum.countP
            (fun p => (p.2.name == s) &&
              decide (p.2.name ∈ (spec.domain.devices.interfaces.take p.1).map Interface.name)) =
          (spec.domain.devices.interfaces.map Interface.name).count s - 1) := by
  refine ⟨?_, ?_, ?_, ?_⟩
  · have h1 := networkDupCauses_eq field spec.networks []
    simp only [List.map_nil, List.length_nil, List.nil_append] at h1
    exact h1
  · have h2 := interfaceDupCauses_eq field spec.domain.devices.interfaces []
    simp only [List.map_nil, List.length_nil, List.nil_append] at h2
    exact h2
  · intro s
    have h3 := countDupAux Network.name s spec.networks []
    simp only [List.map_nil, List.length_nil, List.nil_append, List.not_mem_nil,
      if_false] at h3
    exact h3
  · intro s
    have h4 := countDupAux Interface.name s spec.domain.devices.interfaces []
    simp only [List.map_nil, List.length_nil, List.nil_append, List.not_mem_nil,
      if_false] at h4
    exact h4

/-- C2 counterexample: at the spec whose network list is `net1, net1`, the
emitted Duplicate cause's message carries the name double-quoted (Go's `%q`),
which differs from the single-quoted message the claim specifies verbatim. -/
theorem networkDupMessage_counterexample :
    (validateNetworkNameUnique ⟨"spec"⟩
        { domain := ⟨⟨[]⟩⟩, networks := [⟨"net1"⟩, ⟨"net1"⟩] }).map StatusCause.message =
      ["Network with name \"net1\" already exists, every network must have a unique name"]
    ∧ ("Network with name \"net1\" already exists, every network must have a unique name" ≠
       "Network with name 'net1' already exists, every network must have a unique name") := by
  exact ⟨by decide, by decide⟩

lemma validateMacAddress_shape (field : FieldPath) (idx : Nat) (iface : Interface) :
    validateMacAddress field idx iface = [] ∨
    (∃ c : StatusCause, validateMacAddress field idx iface = [c] ∧
      c.type = CauseType.Invalid) := by
  by_cases h : iface.macAddress = ""
  · left
    simp [validateMacAddress, h]
  · cases hm : parseMAC iface.macAddress with
    | none =>
      right
      exact ⟨{ type := CauseType.Invalid,
               message := "interface " ++ interfaceField field idx "name" ++
                 " has malformed MAC address (" ++ iface.macAddress ++ ").",
               field := interfaceField field idx "macAddress" },
             by simp [validateMacAddress, h, hm], rfl⟩
    | some bs =>
      by_cases hl : 6 < bs.length
      · right
        exact ⟨{ type := CauseType.Invalid,
                 message := "interface " ++ interfaceField field idx "name" ++
                   " has MAC address (" ++ iface.macAddress ++ ") that is too long.",
                 field := interfaceField field idx "macAddress" },
               by simp [validateMacAddress, h, hm, hl], rfl⟩
      · left
        simp [validateMacAddress, h, hm, hl]

/-- C3 (amended): the parse-failure check and the length check are both
performed on every non-empty macAddress, but no value can trigger both
causes: a failed parse yields a nil address of length zero, so the length
check cannot fire on it, and `validateMacAddress` emits at most one cause,
always of kind Invalid. -/
theorem macAddressCauses_atMostOne (field : FieldPath) (idx : Nat) (iface : Interface) :
    (validateMacAddress field idx iface).length ≤ 1 ∧
    ∀ c ∈ validateMacAddress field idx iface, c.type = CauseType.Invalid := by
  rcases validateMacAddress_shape field idx iface with h | ⟨c, hc, ht⟩
  · rw [h]
    exact ⟨by simp, by simp⟩
  · rw [hc]
    refine ⟨by simp, fun d hd => ?_⟩
    rw [List.mem_singleton] at hd
    rw [hd]
    exact ht

/-- C3 counterexample: at the EUI-64-shaped but unparsable value
`zz:00:5e:10:00:00:00:01` — exactly the kind of long value for which the
claim predicts the malformed and the too-long causes together —
`validateMacAddress` emits exactly one cause, the malformed one. -/
theorem macDualEmission_counterexample :
    validateMacAddress ⟨"spec"⟩ 0
        { name := "iface1", model := "", macAddress := "zz:00:5e:10:00:00:00:01",
          pciAddress := "" } =
      [{ type := CauseType.Invalid,
         message := "interface spec.domain.devices.interfaces[0].name has malformed MAC address (zz:00:5e:10:00:00:00:01).",
         field := "spec.domain.devices.interfaces[0].macAddress" }] ∧
    (validateMacAddress ⟨"spec"⟩ 0
        { name := "iface1", model := "", macAddress := "zz:00:5e:10:00:00:00:01",
          pciAddress := "" }).length = 1 := by
  exact ⟨by decide, by decide⟩

/-- C4: an empty macAddress produces no cause; `de:ad:be:ef:00:01` produces
no cause; `not-a-mac` produces exactly one Invalid malformed-MAC cause; and
every macAddress that parses successfully to more than 6 bytes produces
exactly the Invalid too-long cause — e.g. the EUI-64 textual form
`02:00:5e:10:00:00:00:01`, which parses to 8 bytes. -/
theorem macAddressCheck_values (field : FieldPath) (idx : Nat) (nm md pci : String) :
    (validateMacAddress field idx
        { name := nm, model := md, macAddress := "", pciAddress := pci } = [])
    ∧ (validateMacAddress field idx
        { name := nm, model := md, macAddress := "de:ad:be:ef:00:01", pciAddress := pci } = [])
    ∧ (validateMacAddress field idx
        { name := nm, model := md, macAddress := "not-a-mac", pciAddress := pci } =
        [{ type := CauseType.Invalid,
           message := "interface " ++ interfaceField field idx "name" ++
             " has malformed MAC address (not-a-mac).",
           field := interfaceField field idx "macAddress" }])
    ∧ (∀ mac bs, parseMAC mac = some bs → 6 < bs.length →
        validateMacAddress field idx
            { name := nm, model := md, macAddress := mac, pciAddress := pci } =
          [{ type := CauseType.Invalid,
             message := "interface " ++ interfaceField field idx "name" ++
               " has MAC address (" ++ mac ++ ") that is too long.",
             field := interfaceField field idx "macAddress" }])
    ∧ parseMAC "02:00:5e:10:00:00:00:01" = some [2, 0, 94, 16, 0, 0, 0, 1] := by
  refine ⟨?_, ?_, ?_, ?_, by decide⟩
  · simp [validateMacAddress]
  · have hm : parseMAC "de:ad:be:ef:00:01" = some [222, 173, 190, 239, 0, 1] := by decide
    simp [validateMacAddress, hm]
  · have hm : parseMAC "not-a-mac" = none := by decide
    simp [validateMacAddress, hm, String.append_assoc,
      (by decide : " has malformed MAC address (" ++ ("not-a-mac" ++ ").") =
        " has malformed MAC address (not-a-mac).")]
  · intro mac bs hm hl
    have hne : ¬ mac = "" := by
      intro he
      rw [he, show parseMAC "" = (none : Option (List Nat)) from by decide] at hm
      exact Option.noConfusion hm
    simp [validateMacAddress, hne, hm, hl]

lemma interfaceNameValid_iff (s : String) :
    interfaceNameValid s = true ↔ s ≠ "" ∧ ∀ c ∈ s.data, isValidNameChar c = true := by
  rw [interfaceNameValid, Bool.and_eq_true, Bool.not_eq_true']
  constructor
  · rintro ⟨h1, h2⟩
    refine ⟨fun he => ?_, List.all_eq_true.mp h2⟩
    rw [he] at h1
    exact absurd h1 (by decide)
  · rintro ⟨h1, h2⟩
    refine ⟨?_, List.all_eq_true.mpr h2⟩
    cases hd : s.data with
    | nil =>
      have : s = "" := by
        apply String.ext
        exact hd
      exact absurd this h1
    | cons c t => rfl

/-- C5: `validateInterfaceNameFormat` returns no cause exactly when the
interface name is a full match of the anchored pattern — non-empty and drawn
from the class of letters, digits, dashes and underscores — and otherwise
returns exactly one Invalid cause at the interface's name path; `eth0` and
`my-iface_1` pass, while the empty string, `eth 0` and `eth/0` each produce
exactly that one Invalid cause. -/
theorem interfaceNameFormat_correct (field : FieldPath) (idx : Nat) (iface : Interface)
    (md mac pci : String) :
    (validateInterfaceNameFormat field idx iface = [] ↔
      iface.name ≠ "" ∧ ∀ c ∈ iface.name.data, isValidNameChar c = true)
    ∧ (validateInterfaceNameFormat field idx iface = [] ∨
       validateInterfaceNameFormat field idx iface =
         [{ type := CauseType.Invalid,
            message := "Network interface name can only contain alphabetical characters, numbers, dashes (-) or underscores (_)",
            field := interfaceField field idx "name" }])
    ∧ validateInterfaceNameFormat field idx
        { name := "eth0", model := md, macAddress := mac, pciAddress := pci } = []
    ∧ validateInterfaceNameFormat field idx
        { name := "my-iface_1", model := md, macAddress := mac, pciAddress := pci } = []
    ∧ validateInterfaceNameFormat field idx
        { name := "", model := md, macAddress := mac, pciAddress := pci } =
        [{ type := CauseType.Invalid,
           message := "Network interface name can only contain alphabetical characters, numbers, dashes (-) or underscores (_)",
           field := interfaceField field idx "name" }]
    ∧ validateInterfaceNameFormat field idx
        { name := "eth 0", model := md, macAddress := mac, pciAddress := pci } =
        [{ type := CauseType.Invalid,
           message := "Network interface name can only contain alphabetical characters, numbers, dashes (-) or underscores (_)",
           field := interfaceField field idx "name" }]
    ∧ validateInterfaceNameFormat field idx
        { name := "eth/0", model := md, macAddress := mac, pciAddress := pci } =
        [{ type := CauseType.Invalid,
           message := "Network interface name can only contain alphabetical characters, numbers, dashes (-) or underscores (_)",
           field := interfaceField field idx "name" }] := by
  refine ⟨?_, ?_, ?_, ?_, ?_, ?_, ?_⟩
  · rw [← interfaceNameValid_iff]
    cases hx : interfaceNameValid iface.name with
    | true => simp [validateInterfaceNameFormat, hx]
    | false => simp [validateInterfaceNameFormat, hx]
  · cases hx : interfaceNameValid iface.name with
    | true => left; simp [validateInterfaceNameFormat, hx]
    | false => right; simp [validateInterfaceNameFormat, hx]
  · simp [validateInterfaceNameFormat, (by decide : interfaceNameValid "eth0" = true)]
  · simp [validateInterfaceNameFormat, (by decide : interfaceNameValid "my-iface_1" = true)]
  · simp [validateInterfaceNameFormat, (by decide : interfaceNameValid "" = false)]
  · simp [validateInterfaceNameFormat, (by decide : interfaceNameValid "eth 0" = false)]
  · simp [validateInterfaceNameFormat, (by decide : interfaceNameValid "eth/0" = false)]

/-- C6: an empty model produces no cause; each whitelisted model — e1000,
e1000e, ne2k_pci, pcnet, rtl8139 and virtio, the platform's default
paravirtualized NIC identifier — produces no cause; any other non-empty
model, such as `banana`, produces exactly one cause of kind NotSupported;
and the whitelist is the fixed constant list. -/
theorem interfaceModelCheck_correct (field : FieldPath) (idx : Nat) (iface : Interface)
    (nm mac pci : String) :
    (validateInterfaceModel field idx iface =
      if iface.model ≠ "" ∧ iface.model ∉ validInterfaceModels then
        [{ type := CauseType.NotSupported,
           message := "interface " ++ interfaceField field idx "name" ++
             " uses model " ++ iface.model ++ " that is not supported.",
           field := interfaceField field idx "model" }]
      else [])
    ∧ validInterfaceModels = ["e1000", "e1000e", "ne2k_pci", "pcnet", "rtl8139", "virtio"]
    ∧ (∀ m ∈ validInterfaceModels, validateInterfaceModel field idx
        { name := nm, model := m, macAddress := mac, pciAddress := pci } = [])
    ∧ validateInterfaceModel field idx
        { name := nm, model := "", macAddress := mac, pciAddress := pci } = []
    ∧ validateInterfaceModel field idx
        { name := nm, model := "banana", macAddress := mac, pciAddress := pci } =
        [{ type := CauseType.NotSupported,
           message := "interface " ++ interfaceField field idx "name" ++
             " uses model banana that is not supported.",
           field := interfaceField field idx "model" }] := by
  refine ⟨?_, rfl, ?_, ?_, ?_⟩
  · by_cases h1 : iface.model = ""
    · simp [validateInterfaceModel, h1]
    · cases hx : validInterfaceModels.contains iface.model with
      | true =>
        have h2 : iface.model ∈ validInterfaceModels := stringContains_iff.mp hx
        simp [validateInterfaceModel, h1, h2, hx]
      | false =>
        have h2 : iface.model ∉ validInterfaceModels := fun hm => by
          rw [stringContains_iff.mpr hm] at hx
          exact Bool.noConfusion hx
        simp [validateInterfaceModel, h1, h2, hx]
  · intro m hm
    simp only [validInterfaceModels, List.mem_cons, List.mem_singleton] at hm
    rcases hm with rfl | rfl | rfl | rfl | rfl | rfl | hm
    · simp [validateInterfaceModel, validInterfaceModels]
    · simp [validateInterfaceModel, validInterfaceModels]
    · simp [validateInterfaceModel, validInterfaceModels]
    · simp [validateInterfaceModel, validInterfaceModels]
    · simp [validateInterfaceModel, validInterfaceModels]
    · simp [validateInterfaceModel, validInterfaceModels]
    · exact absurd hm (List.not_mem_nil m)
  · simp [validateInterfaceModel]
  · simp [validateInterfaceModel, validInterfaceModels, String.append_assoc,
      (by decide : " uses model " ++ ("banana" ++ " that is not supported.") =
        " uses model banana that is not supported.")]

/-- C7: an empty pciAddress produces no cause; the well-formed
`0000:00:1f.2` produces no cause; and every pciAddress the PCI-address
parser rejects — such as `zz:00:00.0` — produces exactly one Invalid
malformed-PCI-address cause at the interface's pciAddress path. -/
theorem pciAddressCheck_correct (field : FieldPath) (idx : Nat) (nm md mac : String) :
    (validatePciAddress field idx
        { name := nm, model := md, macAddress := mac, pciAddress := "" } = [])
    ∧ (validatePciAddress field idx
        { name := nm, model := md, macAddress := mac, pciAddress := "0000:00:1f.2" } = [])
    ∧ (validatePciAddress field idx
        { name := nm, model := md, macAddress := mac, pciAddress := "zz:00:00.0" } =
        [{ type := CauseType.Invalid,
           message := "interface " ++ interfaceField field idx "name" ++
             " has malformed PCI address (zz:00:00.0).",
           field := interfaceField field idx "pciAddress" }])
    ∧ (∀ iface : Interface, iface.pciAddress ≠ "" → parsePciAddress iface.pciAddress = none →
        validatePciAddress field idx iface =
          [{ type := CauseType.Invalid,
             message := "interface " ++ interfaceField field idx "name" ++
               " has malformed PCI address (" ++ iface.pciAddress ++ ").",
             field := interfaceField field idx "pciAddress" }]) := by
  refine ⟨?_, ?_, ?_, ?_⟩
  · simp [validatePciAddress]
  · simp [validatePciAddress,
      (by decide : parsePciAddress "0000:00:1f.2" =
        some ["0000", "00", "1f", "2"])]
  · simp [validatePciAddress, (by decide : parsePciAddress "zz:00:00.0" = none),
      String.append_assoc,
      (by decide : " has malformed PCI address (" ++ ("zz:00:00.0" ++ ").") =
        " has malformed PCI address (zz:00:00.0).")]
  · intro iface hne hp
    simp [validatePciAddress, hne, hp]

lemma interfaceFieldCauses_eq (field : FieldPath) :
    ∀ (n : Nat) (l : List Interface),
    interfaceFieldCauses field n l =
      ((List.enumFrom n l).map (fun p =>
        validateInterfaceNameFormat field p.1 p.2 ++ validateInterfaceModel field p.1 p.2 ++
        validateMacAddress field p.1 p.2 ++ validatePciAddress field p.1 p.2)).flatten := by
  intro n l
  induction l generalizing n with
  | nil => rfl
  | cons a t ih =>
    rw [show List.enumFrom n (a :: t) = (n, a) :: List.enumFrom (n + 1) t from rfl,
        List.map_cons, List.flatten_cons]
    simp [interfaceFieldCauses, ih, List.append_assoc]

/-- C8: the field-format checker's output is the concatenation, over
interfaces in original list order, of the cause lists of the four sub-checks
applied in the fixed order name format, model, MAC address, PCI address; no
sub-check suppresses or short-circuits any other. -/
theorem interfacesFieldsChecker_concat (field : FieldPath) (spec : VirtualMachineInstanceSpec) :
    validateInterfacesFields field spec =
      (spec.domain.devices.interfaces.enum.map (fun p =>
        validateInterfaceNameFormat field p.1 p.2 ++ validateInterfaceModel field p.1 p.2 ++
        validateMacAddress field p.1 p.2 ++ validatePciAddress field p.1 p.2)).flatten :=
  interfaceFieldCauses_eq field 0 spec.domain.devices.interfaces

lemma networksNotFoundCauses_length_le (field : FieldPath) (mS : List (String × Interface)) :
    ∀ (n : Nat) (l : List Network), (networksNotFoundCauses field mS n l).length ≤ l.length := by
  intro n l
  induction l generalizing n with
  | nil => simp [networksNotFoundCauses]
  | cons a t ih =>
    have h := ih (n + 1)
    cases hx : mapContains mS a.name <;> simp [networksNotFoundCauses, hx] <;> omega

lemma interfacesNotFoundCauses_length_le (field : FieldPath) (mS : List (String × Network)) :
    ∀ (n : Nat) (l : List Interface), (interfacesNotFoundCauses field mS n l).length ≤ l.length := by
  intro n l
  induction l generalizing n with
  | nil => simp [interfacesNotFoundCauses]
  | cons a t ih =>
    have h := ih (n + 1)
    cases hx : mapContains mS a.name <;> simp [interfacesNotFoundCauses, hx] <;> omega

lemma networkDupCauses_length_le (field : FieldPath) :
    ∀ (l : List Network) (seen : List String) (n : Nat),
    (networkDupCauses field seen n l).length ≤ l.length := by
  intro l
  induction l with
  | nil => intro seen n; simp [networkDupCauses]
  | cons a t ih =>
    intro seen n
    have h := ih (seen ++ [a.name]) (n + 1)
    by_cases hm : a.name ∈ seen <;> simp [networkDupCauses, hm] <;> omega

lemma interfaceDupCauses_length_le (field : FieldPath) :
    ∀ (l : List Interface) (seen : List String) (n : Nat),
    (interfaceDupCauses field seen n l).length ≤ l.length := by
  intro l
  induction l with
  | nil => intro seen n; simp [interfaceDupCauses]
  | cons a t ih =>
    intro seen n
    have h := ih (seen ++ [a.name]) (n + 1)
    by_cases hm : a.name ∈ seen <;> simp [interfaceDupCauses, hm] <;> omega

lemma validateInterfaceNameFormat_length_le (field : FieldPath) (idx : Nat) (iface : Interface) :
    (validateInterfaceNameFormat field idx iface).length ≤ 1 := by
  rw [validateInterfaceNameFormat]
  split <;> simp

lemma validateInterfaceModel_length_le (field : FieldPath) (idx : Nat) (iface : Interface) :
    (validateInterfaceModel field idx iface).length ≤ 1 := by
  rw [validateInterfaceModel]
  split
  · split <;> simp
  · simp

lemma validateMacAddress_length_le (field : FieldPath) (idx : Nat) (iface : Interface) :
    (validateMacAddress field idx iface).length ≤ 2 := by
  rcases validateMacAddress_shape field idx iface with h | ⟨c, hc, _⟩
  · simp [h]
  · simp [hc]

lemma validatePciAddress_length_le (field : FieldPath) (idx : Nat) (iface : Interface) :
    (validatePciAddress field idx iface).length ≤ 1 := by
  rw [validatePciAddress]
  split
  · split <;> simp
  · simp

lemma interfaceFieldCauses_length_le (field : FieldPath) :
    ∀ (n : Nat) (l : List Interface),
    (interfaceFieldCauses field n l).length ≤ 5 * l.length := by
  intro n l
  induction l generalizing n with
  | nil => simp [interfaceFieldCauses]
  | cons a t ih =>
    have h1 := validateInterfaceNameFormat_length_le field n a
    have h2 := validateInterfaceModel_length_le field n a
    have h3 := validateMacAddress_length_le field n a
    have h4 := validatePciAddress_length_le field n a
    have h5 := ih (n + 1)
    simp only [interfaceFieldCauses, List.length_append, List.length_cons]
    omega

/-- C9: every check is a total function of the field-path prefix and the
spec: on any spec — empty lists, empty names, arbitrarily malformed field
values — it returns a (possibly empty) cause list, bounded by the size of
the input lists; there is no failure path (each check is embedded as a total
pure function, so non-mutation of the inputs holds by construction). -/
theorem checksTotal_bounded (field : FieldPath) (spec : VirtualMachineInstanceSpec) :
    (validateNetworksAssignedToInterfaces field spec).length ≤ spec.networks.length
    ∧ (validateInterfacesAssignedToNetworks field spec).length ≤
        spec.domain.devices.interfaces.length
    ∧ (validateNetworkNameUnique field spec).length ≤ spec.networks.length
    ∧ (validateInterfaceNameUnique field spec).length ≤
        spec.domain.devices.interfaces.length
    ∧ (validateInterfacesFields field spec).length ≤
        5 * spec.domain.devices.interfaces.length :=
  ⟨networksNotFoundCauses_length_le field _ 0 spec.networks,
   interfacesNotFoundCauses_length_le field _ 0 spec.domain.devices.interfaces,
   networkDupCauses_length_le field spec.networks [] 0,
   interfaceDupCauses_length_le field spec.domain.devices.interfaces [] 0,
   interfaceFieldCauses_length_le field 0 spec.domain.devices.interfaces⟩

lemma mapContains_perm {α : Type} {m₁ m₂ : List (String × α)}
    (h : List.Perm m₁ m₂) (k : String) : mapContains m₁ k = mapContains m₂ k := by
  have hiff : mapContains m₁ k = true ↔ mapContains m₂ k = true := by
    simp only [mapContains, List.any_eq_true]
    constructor
    · rintro ⟨e, he, hp⟩
      exact ⟨e, h.mem_iff.mp he, hp⟩
    · rintro ⟨e, he, hp⟩
      exact ⟨e, h.mem_iff.mpr he, hp⟩
  cases hx : mapContains m₂ k with
  | true => exact hiff.mpr hx
  | false =>
    cases hy : mapContains m₁ k with
    | true =>
      have := hiff.mp hy
      rw [this] at hx
      exact Bool.noConfusion hx
    | false => rfl

lemma stringContains_perm {s₁ s₂ : List String} (h : List.Perm s₁ s₂) (k : String) :
    s₁.contains k = s₂.contains k := by
  cases hx : s₂.contains k with
  | true => exact stringContains_iff.mpr (h.mem_iff.mpr (stringContains_iff.mp hx))
  | false =>
    cases hy : s₁.contains k with
    | true =>
      have := stringContains_iff.mpr (h.mem_iff.mp (stringContains_iff.mp hy))
      rw [this] at hx
      exact Bool.noConfusion hx
    | false => rfl

lemma networksNotFoundCauses_perm (field : FieldPath) {m₁ m₂ : List (String × Interface)}
    (h : List.Perm m₁ m₂) :
    ∀ (n : Nat) (l : List Network),
    networksNotFoundCauses field m₁ n l = networksNotFoundCauses field m₂ n l := by
  intro n l
  induction l generalizing n with
  | nil => rfl
  | cons a t ih => simp only [networksNotFoundCauses, mapContains_perm h a.name, ih]

lemma interfacesNotFoundCauses_perm (field : FieldPath) {m₁ m₂ : List (String × Network)}
    (h : List.Perm m₁ m₂) :
    ∀ (n : Nat) (l : List Interface),
    interfacesNotFoundCauses field m₁ n l = interfacesNotFoundCauses field m₂ n l := by
  intro n l
  induction l generalizing n with
  | nil => rfl
  | cons a t ih => simp only [interfacesNotFoundCauses, mapContains_perm h a.name, ih]

lemma networkDupCauses_perm (field : FieldPath) :
    ∀ (l : List Network) {s₁ s₂ : List String}, List.Perm s₁ s₂ → ∀ (n : Nat),
    networkDupCauses field s₁ n l = networkDupCauses field s₂ n l := by
  intro l
  induction l with
  | nil => intro s₁ s₂ h n; rfl
  | cons a t ih =>
    intro s₁ s₂ h n
    simp only [networkDupCauses, stringContains_perm h a.name]
    rw [ih (h.append_right [a.name]) (n + 1)]

lemma interfaceDupCauses_perm (field : FieldPath) :
    ∀ (l : List Interface) {s₁ s₂ : List String}, List.Perm s₁ s₂ → ∀ (n : Nat),
    interfaceDupCauses field s₁ n l = interfaceDupCauses field s₂ n l := by
  intro l
  induction l with
  | nil => intro s₁ s₂ h n; rfl
  | cons a t ih =>
    intro s₁ s₂ h n
    simp only [interfaceDupCauses, stringContains_perm h a.name]
    rw [ih (h.append_right [a.name]) (n + 1)]

/-- C10: every check is deterministic — equal field-path prefixes and equal
specs yield identical (elementwise equal, equally ordered) cause lists — and
the internal lookup maps and seen-sets are consulted only through key
membership: every checker loop's output is invariant under an arbitrary
permutation of the map entries or of the seen-set, so the randomized
iteration order of the underlying hash maps cannot influence the output. -/
theorem checksDeterministic (field : FieldPath) (spec : VirtualMachineInstanceSpec)
    (m₁ m₂ : List (String × Interface)) (w₁ w₂ : List (String × Network))
    (s₁ s₂ : List String) :
    (∀ (field2 : FieldPath) (spec2 : VirtualMachineInstanceSpec),
      field = field2 → spec = spec2 →
      validateNetworksAssignedToInterfaces field spec =
        validateNetworksAssignedToInterfaces field2 spec2
      ∧ validateInterfacesAssignedToNetworks field spec =
          validateInterfacesAssignedToNetworks field2 spec2
      ∧ validateNetworkNameUnique field spec = validateNetworkNameUnique field2 spec2
      ∧ validateInterfaceNameUnique field spec = validateInterfaceNameUnique field2 spec2
      ∧ validateInterfacesFields field spec = validateInterfacesFields field2 spec2)
    ∧ (List.Perm m₁ m₂ → ∀ (n : Nat) (l : List Network),
        networksNotFoundCauses field m₁ n l = networksNotFoundCauses field m₂ n l)
    ∧ (List.Perm w₁ w₂ → ∀ (n : Nat) (l : List Interface),
        interfacesNotFoundCauses field w₁ n l = interfacesNotFoundCauses field w₂ n l)
    ∧ (List.Perm s₁ s₂ → ∀ (n : Nat) (l : List Network),
        networkDupCauses field s₁ n l = networkDupCauses field s₂ n l)
    ∧ (List.Perm s₁ s₂ → ∀ (n : Nat) (l : List Interface),
        interfaceDupCauses field s₁ n l = interfaceDupCauses field s₂ n l) := by
  refine ⟨?_, ?_, ?_, ?_, ?_⟩
  · rintro field2 spec2 rfl rfl
    exact ⟨rfl, rfl, rfl, rfl, rfl⟩
  · intro h n l
    exact networksNotFoundCauses_perm field h n l
  · intro h n l
    exact interfacesNotFoundCauses_perm field h n l
  · intro h n l
    exact networkDupCauses_perm field l h n
  · intro h n l
    exact interfaceDupCauses_perm field l h n
